import Mathlib

/-!
Verification development for `sourcetpl/package.py`: the package-skeleton
generator.  The Python module composes a fixed manifest of packaging files
(Debian maintainer scripts, build/clean scripts, cron and init entries and a
package manifest) by substituting project variables into literal template
strings with `string.Template.safe_substitute` semantics.

The shallow embedding below models:
  * the safe/partial substitution algorithm of Python's
    `string.Template.safe_substitute` (default delimiter `$`, identifier
    pattern `[_a-zA-Z][_a-zA-Z0-9]*`, braced and named forms, `$$` escape,
    invalid tokens left untouched),
  * the literal template catalog (`BUILD_PACKAGE`, `CLEAN_PACKAGE`, `CRON`,
    `INITD`, `PACKAGE_CONF`) transcribed byte-for-byte from the source,
  * the `Package` manifest builder (`__init__`, `current_dir`,
    `_prepare_package_files`).

External collaborator modules (`languages.bash`, `license`, `utils`,
`FileTemplate`) are not part of the repository sources available here; they
are modelled from the spec as explicit parameters (see `Collaborators`).
-/

set_option maxRecDepth 8000

namespace SourceTpl

/-- The left-brace character, written via its code point. -/
def lbrace : Char := Char.ofNat 123

/-- The right-brace character, written via its code point. -/
def rbrace : Char := Char.ofNat 125

/-- First-character class of a placeholder identifier in Python's
`string.Template` default pattern: `[_a-zA-Z]`. -/
def isIdentStart (c : Char) : Bool :=
  c = '_' || ('a' ≤ c && c ≤ 'z') || ('A' ≤ c && c ≤ 'Z')

/-- Continuation-character class of a placeholder identifier:
`[_a-zA-Z0-9]`. -/
def isIdentChar (c : Char) : Bool :=
  isIdentStart c || ('0' ≤ c && c ≤ '9')

/-- Longest prefix consisting of identifier-continuation characters,
together with the remaining characters. -/
def takeIdent : List Char → List Char × List Char
  | [] => ([], [])
  | c :: rest =>
    if isIdentChar c then
      let p := takeIdent rest
      (c :: p.1, p.2)
    else ([], c :: rest)

/-- Parse the text following `$\x7b`: an identifier immediately followed by a
closing brace.  Returns the identifier and the remaining characters, or
`none` when the braced form is invalid (in which case Python's scanner
treats the `$` as an `invalid` match and leaves it unchanged). -/
def parseBraced (l : List Char) : Option (List Char × List Char) :=
  match l with
  | [] => none
  | c :: rest =>
    if isIdentStart c then
      match (takeIdent rest).2 with
      | d :: rem =>
        if d = rbrace then some (c :: (takeIdent rest).1, rem) else none
      | [] => none
    else none

/-- Association-list lookup modelling the Python mapping passed to
`safe_substitute`. -/
def lookupVar : List (String × String) → String → Option String
  | [], _ => none
  | (k, v) :: rest, key => if k = key then some v else lookupVar rest key

/-- Handle a `named` match of the scanner: the identifier starting with `d`
is replaced by its binding when bound and kept byte-for-byte when not. -/
def substNamed (m : List (String × String)) (d : Char) (r : List Char) :
    List Char × List Char :=
  match lookupVar m (String.mk (d :: (takeIdent r).1)) with
  | some v => (v.data, (takeIdent r).2)
  | none => ('$' :: d :: (takeIdent r).1, (takeIdent r).2)

/-- Handle the text after `$\x7b`: a well-formed braced placeholder is
replaced when bound and kept byte-for-byte when not; an ill-formed one is an
`invalid` match, whose `$` is emitted unchanged with scanning resuming at
the brace. -/
def substBracedTok (m : List (String × String)) (r : List Char) :
    List Char × List Char :=
  match parseBraced r with
  | some q =>
    match lookupVar m (String.mk q.1) with
    | some v => (v.data, q.2)
    | none => ('$' :: lbrace :: (q.1 ++ [rbrace]), q.2)
  | none => (['$'], lbrace :: r)

/-- Handle the text following a `$`: dispatch on escape, named, braced or
invalid match, as Python's pattern does. -/
def substDollar (m : List (String × String)) : List Char → List Char × List Char
  | [] => (['$'], [])
  | d :: r =>
    if d = '$' then (['$'], r)
    else if isIdentStart d then substNamed m d r
    else if d = lbrace then substBracedTok m r
    else (['$'], d :: r)

/-- One step of Python's `Template.safe_substitute` scanner: consume one
token (or one literal character) from the front of the list and return the
corresponding output chunk together with the unconsumed remainder. -/
def substStep (m : List (String × String)) : List Char → List Char × List Char
  | [] => ([], [])
  | c :: rest => if c = '$' then substDollar m rest else ([c], rest)

/-- Fuel-indexed scanning loop of `safe_substitute`.  Every step consumes at
least one character, so fuel equal to the length of the list suffices. -/
def substAux (m : List (String × String)) : Nat → List Char → List Char
  | 0, l => l
  | _ + 1, [] => []
  | fuel + 1, c :: rest =>
    let p := substStep m (c :: rest)
    p.1 ++ substAux m fuel p.2

/-- Safe substitution over a character list, with exactly enough fuel. -/
def subst (m : List (String × String)) (l : List Char) : List Char :=
  substAux m l.length l

/-- `Template(t).safe_substitute(m)` of Python's `string` module. -/
def safe_substitute (m : List (String × String)) (t : String) : String :=
  String.mk (subst m t.data)

/-- A string that is a valid placeholder identifier
(`[_a-zA-Z][_a-zA-Z0-9]*`). -/
def validIdent (s : String) : Bool :=
  match s.data with
  | [] => false
  | c :: tl => isIdentStart c && tl.all isIdentChar

/-- Literal template constant `PREFIX` of `sourcetpl/package.py`,
transcribed byte-for-byte (braces, apostrophes and backticks written as
escape codes). -/
def PREFIX : String := "package"

/-- Literal template constant `BUILD_PACKAGE` of `sourcetpl/package.py`,
transcribed byte-for-byte (braces, apostrophes and backticks written as
escape codes). -/
def BUILD_PACKAGE : String :=
  "package_conf=\"../package.conf\"\n" ++
  "package_tmp_dir=tmpbuild\n" ++
  "arch=i686\n" ++
  "\n" ++
  "# Compile all internal applications\n" ++
  "compile_applications()\n" ++
  "\x7b\n" ++
  "    local modules=\x60cfget -C $package_conf package/modules\x60\n" ++
  "\n" ++
  "    for app in $\x7bmodules[@]\x7d; do\n" ++
  "        echo \"(cd ../../$app/src && make clean && make)\"\n" ++
  "    done\n" ++
  "\x7d\n" ++
  "\n" ++
  "# Prepare the current environment to build the package\n" ++
  "prepare_to_build()\n" ++
  "\x7b\n" ++
  "    rm -f *.deb\n" ++
  "    mkdir -p $package_tmp_dir/\x7bDEBIAN,usr/bin,etc/\x7bcron.d,init.d\x7d\x7d\n" ++
  "\x7d\n" ++
  "\n" ++
  "# Copy all necessary files\n" ++
  "copy_necessary_files()\n" ++
  "\x7b\n" ++
  "    local modules=\x60cfget -C $package_conf package/modules\x60\n" ++
  "\n" ++
  "    prepare_to_build\n" ++
  "\n" ++
  "    # Copy all binaries\n" ++
  "    for app in $\x7bmodules[@]\x7d; do\n" ++
  "        cp -f ../../$app/bin/$arch/* $package_tmp_dir/usr/bin || \\\n" ++
  "            echo \"Error while copying binary from module \x27$app\x27.\"\n" ++
  "    done\n" ++
  "\n" ++
  "    # Copy misc scripts\n" ++
  "    local dest_cron=\x60basename ../misc/*_cron _cron\x60\n" ++
  "    cp -f ../misc/*_cron $package_tmp_dir/etc/cron.d/$dest_cron || \\\n" ++
  "        echo \"Error copying to file \x27$dest_cron\x27.\"\n" ++
  "\n" ++
  "    local dest_init=\x60basename ../misc/*_initd _initd\x60\n" ++
  "    cp -f ../misc/*_initd $package_tmp_dir/etc/init.d/$dest_init || \\\n" ++
  "        echo \"Error copying to file \x27$dest_init\x27.\"\n" ++
  "\n" ++
  "    # Copy all debian scripts\n" ++
  "    for script in postinst postrm preinst prerm; do\n" ++
  "        cp -f ../debian/$script $package_tmp_dir/DEBIAN || \\\n" ++
  "            echo \"Error copying file \x27$script\x27.\"\n" ++
  "    done\n" ++
  "\x7d\n" ++
  "\n" ++
  "clear_temporary_files()\n" ++
  "\x7b\n" ++
  "    rm -rf $package_tmp_dir\n" ++
  "\x7d\n" ++
  "\n" ++
  "# Build the package\n" ++
  "build_package()\n" ++
  "\x7b\n" ++
  "    # Build all package info, such as version, revision, etc\n" ++
  "    local package=\x60cfget -C $package_conf package/name\x60\n" ++
  "    local major=\x60cfget -C $package_conf version/major\x60\n" ++
  "    local minor=\x60cfget -C $package_conf version/minor\x60\n" ++
  "    local release=\x60cfget -C $package_conf version/release\x60\n" ++
  "    local beta_release=\x60cfget -C $package_conf version/beta\x60\n" ++
  "    local version=$major.$minor.$release\n" ++
  "\n" ++
  "    local depends=\x27\x27\n" ++
  "    local maintainer=\x27\x27\n" ++
  "    local description=\x27\x27\n" ++
  "\n" ++
  "    # Create CONTROL file\n" ++
  "    cat << CONTROL >> $package_tmp_dir/DEBIAN/control\n" ++
  "Package: $package\n" ++
  "Priority: optional\n" ++
  "Version: $version\n" ++
  "Architecture: $arch\n" ++
  "Depends: $depends\n" ++
  "Maintainer: $maintainer\n" ++
  "Description: $description\n" ++
  "CONTROL\n" ++
  "\n" ++
  "    # Build the package\n" ++
  "    if [ $beta_release == true ]; then\n" ++
  "        beta=\"-Beta\"\n" ++
  "    else\n" ++
  "        beta=\"\"\n" ++
  "    fi\n" ++
  "\n" ++
  "    deb_filename=$package-$version.deb\n" ++
  "    fakeroot dpkg-deb -Zgzip -b $package_tmp_dir $deb_filename\n" ++
  "\n" ++
  "    clear_temporary_files\n" ++
  "\x7d\n" ++
  "\n" ++
  "usage()\n" ++
  "\x7b\n" ++
  "    echo \"Usage: ./build-package [OPTIONS]\"\n" ++
  "    echo\n" ++
  "    echo \"Options\"\n" ++
  "    echo -e \" -h\\t\\tShows this help screen.\"\n" ++
  "    echo -e \" -a [arch]\\tDefines the package destination architecture.\"\n" ++
  "    echo\n" ++
  "\n" ++
  "    exit 1\n" ++
  "\x7d\n" ++
  "\n" ++
  "while getopts \"ha:\" OPTION; do\n" ++
  "    case $OPTION in\n" ++
  "        h)\n" ++
  "            usage\n" ++
  "            ;;\n" ++
  "        a)\n" ++
  "            arch=$OPTARG\n" ++
  "            ;;\n" ++
  "        \\?)\n" ++
  "            exit 1\n" ++
  "            ;;\n" ++
  "    esac\n" ++
  "done\n" ++
  "\n" ++
  "compile_applications\n" ++
  "copy_necessary_files\n" ++
  "build_package\n"

/-- Literal template constant `CLEAN_PACKAGE` of `sourcetpl/package.py`,
transcribed byte-for-byte (braces, apostrophes and backticks written as
escape codes). -/
def CLEAN_PACKAGE : String :=
  "package_dir=../../\n" ++
  "\n" ++
  "# Remove older versions\n" ++
  "rm -rf *.deb\n" ++
  "\n" ++
  "for arq in $package_dir*/src; do\n" ++
  "    echo \"Cleaning source directory: $arq\"\n" ++
  "    (cd $arq && make clean)\n" ++
  "done\n"

/-- Literal template constant `CRON` of `sourcetpl/package.py`,
transcribed byte-for-byte (braces, apostrophes and backticks written as
escape codes). -/
def CRON : String :=
  "SHELL=/bin/sh\n" ++
  "PATH=/usr/local/sbin:/usr/local/bin:/sbin:/bin:/usr/sbin:/usr/bin\n" ++
  "\n" ++
  "*/1 * * * *    root    /etc/init.d/$PROJECT_NAME.sh status || /etc/init.d/$PROJECT_NAME.sh start\n"

/-- Literal template constant `INITD` of `sourcetpl/package.py`,
transcribed byte-for-byte (braces, apostrophes and backticks written as
escape codes). -/
def INITD : String :=
  "#!/bin/sh\n" ++
  "\n" ++
  ". /lib/lsb/init-functions\n" ++
  "\n" ++
  "case \"$1\" in\n" ++
  "    start)\n" ++
  "        log_begin_msg \"Starting $PROJECT_NAME: \"\n" ++
  "\n" ++
  "        if start-stop-daemon --start --quiet --exec /usr/local/bin/$PROJECT_NAME; then\n" ++
  "            log_end_msg 0\n" ++
  "        else\n" ++
  "            log_end_msg 1\n" ++
  "        fi\n" ++
  "        ;;\n" ++
  "\n" ++
  "    stop)\n" ++
  "        log_begin_msg \"Shutting down $PROJECT_NAME: \"\n" ++
  "\n" ++
  "        if start-stop-daemon --stop --quiet --exec /usr/local/bin/$PROJECT_NAME; then\n" ++
  "            log_end_msg 0\n" ++
  "        else\n" ++
  "            log_end_msg 1\n" ++
  "        fi\n" ++
  "        ;;\n" ++
  "\n" ++
  "    status)\n" ++
  "        if [ -s /var/run/$PROJECT_NAME.pid ]; then\n" ++
  "            if kill -0 \x60cat /var/run/$PROJECT_NAME.pid\x60 2>/dev/null; then\n" ++
  "                log_success_msg \"$PROJECT_NAME esta sendo executado\"\n" ++
  "                exit 0\n" ++
  "            else\n" ++
  "                log_failure_msg \"/var/run/$PROJECT_NAME.pid exists but $PROJECT_NAME is not running\"\n" ++
  "                exit 1\n" ++
  "            fi\n" ++
  "        else\n" ++
  "            log_success_msg \"$PROJECT_NAME is not running\"\n" ++
  "            exit 3\n" ++
  "        fi\n" ++
  "        ;;\n" ++
  "\n" ++
  "    restart)\n" ++
  "        $0 stop\n" ++
  "        sleep 5\n" ++
  "        $0 start\n" ++
  "        ;;\n" ++
  "\n" ++
  "    reload)\n" ++
  "        log_begin_msg \"Restarting $PROJECT_NAME: \"\n" ++
  "        start-stop-daemon --stop --signal 10 --exec /usr/local/bin/$PROJECT_NAME || log_end_msg 1\n" ++
  "        log_end_msg 0\n" ++
  "        ;;\n" ++
  "\n" ++
  "    *)\n" ++
  "        log_begin_msg \"Usage: %s (start|stop|status|restart|reload)\" \"$0\"\n" ++
  "        exit 1\n" ++
  "esac\n" ++
  "\n" ++
  "exit 0\n"

/-- Literal template constant `PACKAGE_CONF` of `sourcetpl/package.py`,
transcribed byte-for-byte (braces, apostrophes and backticks written as
escape codes). -/
def PACKAGE_CONF : String :=
  "# Main package informations.\n" ++
  "# The package modules must be separated by spaces.\n" ++
  "[package]\n" ++
  "name=$PROJECT_NAME\n" ++
  "modules=$PROJECT_NAME\n" ++
  "\n" ++
  "# Package version: major.minor.release\n" ++
  "# Example: 0.1.1\n" ++
  "[version]\n" ++
  "major=0\n" ++
  "minor=1\n" ++
  "release=1\n" ++
  "beta=true\n"

/-- The second through last lines of `BUILD_PACKAGE`, each terminated by a
newline; `BUILD_PACKAGE` is definitionally the left fold of the append of its
first line with this list. -/
def BUILD_PACKAGE_TAIL_LINES : List String :=
  ["package_tmp_dir=tmpbuild\n",
   "arch=i686\n",
   "\n",
   "# Compile all internal applications\n",
   "compile_applications()\n",
   "\x7b\n",
   "    local modules=\x60cfget -C $package_conf package/modules\x60\n",
   "\n",
   "    for app in $\x7bmodules[@]\x7d; do\n",
   "        echo \"(cd ../../$app/src && make clean && make)\"\n",
   "    done\n",
   "\x7d\n",
   "\n",
   "# Prepare the current environment to build the package\n",
   "prepare_to_build()\n",
   "\x7b\n",
   "    rm -f *.deb\n",
   "    mkdir -p $package_tmp_dir/\x7bDEBIAN,usr/bin,etc/\x7bcron.d,init.d\x7d\x7d\n",
   "\x7d\n",
   "\n",
   "# Copy all necessary files\n",
   "copy_necessary_files()\n",
   "\x7b\n",
   "    local modules=\x60cfget -C $package_conf package/modules\x60\n",
   "\n",
   "    prepare_to_build\n",
   "\n",
   "    # Copy all binaries\n",
   "    for app in $\x7bmodules[@]\x7d; do\n",
   "        cp -f ../../$app/bin/$arch/* $package_tmp_dir/usr/bin || \\\n",
   "            echo \"Error while copying binary from module \x27$app\x27.\"\n",
   "    done\n",
   "\n",
   "    # Copy misc scripts\n",
   "    local dest_cron=\x60basename ../misc/*_cron _cron\x60\n",
   "    cp -f ../misc/*_cron $package_tmp_dir/etc/cron.d/$dest_cron || \\\n",
   "        echo \"Error copying to file \x27$dest_cron\x27.\"\n",
   "\n",
   "    local dest_init=\x60basename ../misc/*_initd _initd\x60\n",
   "    cp -f ../misc/*_initd $package_tmp_dir/etc/init.d/$dest_init || \\\n",
   "        echo \"Error copying to file \x27$dest_init\x27.\"\n",
   "\n",
   "    # Copy all debian scripts\n",
   "    for script in postinst postrm preinst prerm; do\n",
   "        cp -f ../debian/$script $package_tmp_dir/DEBIAN || \\\n",
   "            echo \"Error copying file \x27$script\x27.\"\n",
   "    done\n",
   "\x7d\n",
   "\n",
   "clear_temporary_files()\n",
   "\x7b\n",
   "    rm -rf $package_tmp_dir\n",
   "\x7d\n",
   "\n",
   "# Build the package\n",
   "build_package()\n",
   "\x7b\n",
   "    # Build all package info, such as version, revision, etc\n",
   "    local package=\x60cfget -C $package_conf package/name\x60\n",
   "    local major=\x60cfget -C $package_conf version/major\x60\n",
   "    local minor=\x60cfget -C $package_conf version/minor\x60\n",
   "    local release=\x60cfget -C $package_conf version/release\x60\n",
   "    local beta_release=\x60cfget -C $package_conf version/beta\x60\n",
   "    local version=$major.$minor.$release\n",
   "\n",
   "    local depends=\x27\x27\n",
   "    local maintainer=\x27\x27\n",
   "    local description=\x27\x27\n",
   "\n",
   "    # Create CONTROL file\n",
   "    cat << CONTROL >> $package_tmp_dir/DEBIAN/control\n",
   "Package: $package\n",
   "Priority: optional\n",
   "Version: $version\n",
   "Architecture: $arch\n",
   "Depends: $depends\n",
   "Maintainer: $maintainer\n",
   "Description: $description\n",
   "CONTROL\n",
   "\n",
   "    # Build the package\n",
   "    if [ $beta_release == true ]; then\n",
   "        beta=\"-Beta\"\n",
   "    else\n",
   "        beta=\"\"\n",
   "    fi\n",
   "\n",
   "    deb_filename=$package-$version.deb\n",
   "    fakeroot dpkg-deb -Zgzip -b $package_tmp_dir $deb_filename\n",
   "\n",
   "    clear_temporary_files\n",
   "\x7d\n",
   "\n",
   "usage()\n",
   "\x7b\n",
   "    echo \"Usage: ./build-package [OPTIONS]\"\n",
   "    echo\n",
   "    echo \"Options\"\n",
   "    echo -e \" -h\\t\\tShows this help screen.\"\n",
   "    echo -e \" -a [arch]\\tDefines the package destination architecture.\"\n",
   "    echo\n",
   "\n",
   "    exit 1\n",
   "\x7d\n",
   "\n",
   "while getopts \"ha:\" OPTION; do\n",
   "    case $OPTION in\n",
   "        h)\n",
   "            usage\n",
   "            ;;\n",
   "        a)\n",
   "            arch=$OPTARG\n",
   "            ;;\n",
   "        \\?)\n",
   "            exit 1\n",
   "            ;;\n",
   "    esac\n",
   "done\n",
   "\n",
   "compile_applications\n",
   "copy_necessary_files\n",
   "build_package\n"]

/-- The second through last lines of `INITD`, each terminated by a newline;
`INITD` is definitionally the left fold of the append of its first line with
this list. -/
def INITD_TAIL_LINES : List String :=
  ["\n",
   ". /lib/lsb/init-functions\n",
   "\n",
   "case \"$1\" in\n",
   "    start)\n",
   "        log_begin_msg \"Starting $PROJECT_NAME: \"\n",
   "\n",
   "        if start-stop-daemon --start --quiet --exec /usr/local/bin/$PROJECT_NAME; then\n",
   "            log_end_msg 0\n",
   "        else\n",
   "            log_end_msg 1\n",
   "        fi\n",
   "        ;;\n",
   "\n",
   "    stop)\n",
   "        log_begin_msg \"Shutting down $PROJECT_NAME: \"\n",
   "\n",
   "        if start-stop-daemon --stop --quiet --exec /usr/local/bin/$PROJECT_NAME; then\n",
   "            log_end_msg 0\n",
   "        else\n",
   "            log_end_msg 1\n",
   "        fi\n",
   "        ;;\n",
   "\n",
   "    status)\n",
   "        if [ -s /var/run/$PROJECT_NAME.pid ]; then\n",
   "            if kill -0 \x60cat /var/run/$PROJECT_NAME.pid\x60 2>/dev/null; then\n",
   "                log_success_msg \"$PROJECT_NAME esta sendo executado\"\n",
   "                exit 0\n",
   "            else\n",
   "                log_failure_msg \"/var/run/$PROJECT_NAME.pid exists but $PROJECT_NAME is not running\"\n",
   "                exit 1\n",
   "            fi\n",
   "        else\n",
   "            log_success_msg \"$PROJECT_NAME is not running\"\n",
   "            exit 3\n",
   "        fi\n",
   "        ;;\n",
   "\n",
   "    restart)\n",
   "        $0 stop\n",
   "        sleep 5\n",
   "        $0 start\n",
   "        ;;\n",
   "\n",
   "    reload)\n",
   "        log_begin_msg \"Restarting $PROJECT_NAME: \"\n",
   "        start-stop-daemon --stop --signal 10 --exec /usr/local/bin/$PROJECT_NAME || log_end_msg 1\n",
   "        log_end_msg 0\n",
   "        ;;\n",
   "\n",
   "    *)\n",
   "        log_begin_msg \"Usage: %s (start|stop|status|restart|reload)\" \"$0\"\n",
   "        exit 1\n",
   "esac\n",
   "\n",
   "exit 0\n"]

/-- Configuration passed to `Package.__init__` (`args`): project name, name
prefix (`args.prefix` in the source), target language and optional license
identifier. -/
structure Args where
  project_name : String
  prefixArg : String
  language : String
  license : Option String
deriving DecidableEq

/-- One registered file specification, mirroring the tuples
`(filename, executable, path, body, head, tail)` of
`Package._prepare_package_files` handed to `FileTemplateInfo.add`. -/
structure FileSpec where
  filename : String
  executable : Bool
  path : String
  body : Option String
  head : Option String
  tail : Option String
deriving DecidableEq

/-- Modelled from the spec: the external collaborator interfaces consumed by
the manifest builder, whose modules (`utils`, `languages.bash`, `license`)
are not part of the repository sources available here: `utils.C_LANGUAGE`
(the recognized compiled/native language marker), `languages.bash.HEAD`
(plain shell-script header template), `languages.bash.HEAD_LICENSE` (header
template carrying a secondary text-insertion slot), `languages.bash.TAIL`
(footer template), and `license.license_block` (the license-block renderer,
which fails on an unknown license identifier). -/
structure Collaborators where
  C_LANGUAGE : String
  HEAD : String
  HEAD_LICENSE : String
  TAIL : String
  license_block : String → List (String × String) → Char → Except String String

/-- Modelled from the spec: filling the secondary text-insertion slot of the
license-aware header template, as Python\x27s `template % license_text`
formatting does: the first `%s` slot is replaced by the argument. -/
def fillSlotAux (arg : List Char) : List Char → List Char
  | [] => []
  | [c] => [c]
  | c :: d :: rest =>
    if c = '%' then
      if d = 's' then arg ++ rest else c :: fillSlotAux arg (d :: rest)
    else c :: fillSlotAux arg (d :: rest)

/-- String-level wrapper of `fillSlotAux`. -/
def fillSlot (s arg : String) : String :=
  String.mk (fillSlotAux arg.data s.data)

/-- `str.replace(old, new)` of Python, restricted to single-character
arguments as used by the source: every occurrence is replaced. -/
def replaceChar (a b : Char) (s : String) : String :=
  String.mk (s.data.map (fun c => if c = a then b else c))

namespace Package

/-- `self._root_dir` computed in `Package.__init__`:
`PREFIX + \x27-\x27 + args.prefix + args.project_name.replace(\x27_\x27, \x27-\x27)`. -/
def root_dir (args : Args) : String :=
  PREFIX ++ "-" ++ args.prefixArg ++ replaceChar '_' '-' args.project_name

/-- `Package.current_dir`: returns the package root directory name. -/
def current_dir (args : Args) : String := root_dir args

/-- The local variable `prefix` of `_prepare_package_files`:
`args.project_name.replace(\x27-\x27, \x27_\x27)`. -/
def underscored_name (args : Args) : String :=
  replaceChar '-' '_' args.project_name

/-- The `files` table of `_prepare_package_files` (lines 300-332): the nine
file specifications in source order, given the computed `bash_head` and
`bash_tail` texts.  The build-package body comes from the one-entry
dictionary dispatch `\x7butils.C_LANGUAGE: Template(BUILD_PACKAGE)
.safe_substitute(...)\x7d.get(args.language)`. -/
def packageFiles (col : Collaborators) (args : Args)
    (pv : List (String × String)) (bash_head bash_tail : String) :
    List FileSpec :=
  let build_package : Option String :=
    if args.language = col.C_LANGUAGE then
      some (safe_substitute pv BUILD_PACKAGE)
    else none
  [⟨"postinst", true, "debian", none, some bash_head, some bash_tail⟩,
   ⟨"postrm", true, "debian", none, some bash_head, some bash_tail⟩,
   ⟨"preinst", true, "debian", none, some bash_head, some bash_tail⟩,
   ⟨"prerm", true, "debian", none, some bash_head, some bash_tail⟩,
   ⟨"build-package", true, "mount", build_package, some bash_head,
     some bash_tail⟩,
   ⟨"clean-package", true, "mount",
     some (safe_substitute pv CLEAN_PACKAGE), some bash_head,
     some bash_tail⟩,
   ⟨underscored_name args ++ "_cron", false, "misc",
     some (safe_substitute pv CRON), none, none⟩,
   ⟨underscored_name args ++ "_initd", true, "misc",
     some (safe_substitute pv INITD), none, none⟩,
   ⟨"package.conf", false, "", some (safe_substitute pv PACKAGE_CONF),
     none, none⟩]

/-- The `bash_head` computation of `_prepare_package_files` (lines 289-296):
the plain header template with bindings applied when no license is
configured; otherwise the license-aware header template with bindings
applied, its slot filled with the license-block text rendered for the
license identifier, the bindings and comment character `#`.  A failure of
the license renderer propagates. -/
def bashHead (col : Collaborators) (args : Args)
    (pv : List (String × String)) : Except String String :=
  match args.license with
  | none => Except.ok (safe_substitute pv col.HEAD)
  | some lic =>
    (col.license_block lic pv '#').map
      (fun blk => fillSlot (safe_substitute pv col.HEAD_LICENSE) blk)

/-- `Package._prepare_package_files`: the head is computed first (the only
step that can fail, evaluated before any file is registered); on success the
nine file specifications are registered in order with the shared head and
tail; on a license error nothing is registered and the error propagates
unchanged. -/
def prepare_package_files (col : Collaborators) (args : Args)
    (pv : List (String × String)) : Except String (List FileSpec) :=
  (bashHead col args pv).map
    (fun h => packageFiles col args pv h (safe_substitute pv col.TAIL))

end Package

/-- Composed content of a file specification (spec section 3): head, body
and tail concatenated in order, an absent segment contributing nothing. -/
def composedBody (f : FileSpec) : String :=
  f.head.getD "" ++ f.body.getD "" ++ f.tail.getD ""

/-- Fixture configuration: no license, non-native language. -/
def wArgs : Args := ⟨"demo", "", "py", none⟩

/-- Fixture configuration: with a license identifier. -/
def wArgsLic : Args := ⟨"demo", "", "c", some "gpl"⟩

/-- Fixture collaborators whose license renderer always succeeds. -/
def wCol : Collaborators :=
  ⟨"c", "HB", "H%sB", "TB", fun _ _ _ => Except.ok "LB"⟩

/-- Fixture collaborators whose license renderer always fails. -/
def wColErr : Collaborators :=
  ⟨"c", "HB", "H%sB", "TB", fun _ _ _ => Except.error "unknown license"⟩

end SourceTpl

namespace SourceTpl

theorem takeIdent_append (l : List Char) :
    (takeIdent l).1 ++ (takeIdent l).2 = l := by
  induction l with
  | nil => rfl
  | cons c rest ih =>
    by_cases h : isIdentChar c = true
    · simp [takeIdent, h, ih]
    · simp [takeIdent, h]

theorem takeIdent_snd_length (l : List Char) :
    (takeIdent l).2.length ≤ l.length := by
  conv_rhs => rw [← takeIdent_append l]
  simp

theorem takeIdent_all (a : List Char) (ha : ∀ x ∈ a, isIdentChar x = true) :
    takeIdent a = (a, []) := by
  induction a with
  | nil => rfl
  | cons c rest ih =>
    have hc : isIdentChar c = true := ha c (List.mem_cons_self c rest)
    have := ih (fun x hx => ha x (List.mem_cons_of_mem c hx))
    simp [takeIdent, hc, this]

theorem takeIdent_append_not (a : List Char) (c : Char) (b : List Char)
    (ha : ∀ x ∈ a, isIdentChar x = true) (hc : isIdentChar c = false) :
    takeIdent (a ++ c :: b) = (a, c :: b) := by
  induction a with
  | nil => simp [takeIdent, hc]
  | cons x a' ih =>
    have hx : isIdentChar x = true := ha x (List.mem_cons_self x a')
    have := ih (fun y hy => ha y (List.mem_cons_of_mem x hy))
    simp [takeIdent, hx, this]

theorem parseBraced_some_shape {l nm rem : List Char}
    (h : parseBraced l = some (nm, rem)) :
    l = nm ++ rbrace :: rem ∧ rem.length + 1 ≤ l.length := by
  match l with
  | [] => simp [parseBraced] at h
  | c :: rest =>
    by_cases hs : isIdentStart c = true
    · rw [parseBraced] at h
      rw [if_pos hs] at h
      cases hp : (takeIdent rest).2 with
      | nil => simp only [hp] at h; exact absurd h (by simp)
      | cons d rem' =>
        simp only [hp] at h
        by_cases hd : d = rbrace
        · rw [if_pos hd] at h
          have h' := Option.some.inj h
          have h1 : c :: (takeIdent rest).1 = nm := congrArg Prod.fst h'
          have h2 : rem' = rem := congrArg Prod.snd h'
          constructor
          · rw [← h1]
            conv_lhs => rw [← takeIdent_append rest, hp, hd, h2]
            simp
          · have hle := takeIdent_snd_length rest
            rw [hp, h2] at hle
            simp only [List.length_cons] at hle ⊢
            omega
        · rw [if_neg hd] at h; exact absurd h (by simp)
    · rw [parseBraced] at h
      rw [if_neg hs] at h
      exact absurd h (by simp)

theorem substNamed_snd (m : List (String × String)) (d : Char)
    (r : List Char) : (substNamed m d r).2 = (takeIdent r).2 := by
  rw [substNamed]
  cases lookupVar m (String.mk (d :: (takeIdent r).1)) <;> rfl

theorem substBracedTok_length (m : List (String × String)) (r : List Char) :
    (substBracedTok m r).2.length ≤ r.length + 1 := by
  rw [substBracedTok]
  cases hp : parseBraced r with
  | some q =>
    obtain ⟨nm, rem⟩ := q
    have hsh := (parseBraced_some_shape hp).2
    cases hlk : lookupVar m (String.mk nm) with
    | some v => simp only [hlk]; simp; omega
    | none => simp only [hlk]; simp; omega
  | none => simp

theorem substDollar_length (m : List (String × String)) (rest : List Char) :
    (substDollar m rest).2.length ≤ rest.length := by
  match rest with
  | [] => simp [substDollar]
  | d :: r =>
    rw [substDollar]
    by_cases hd : d = '$'
    · rw [if_pos hd]
      simp
    · rw [if_neg hd]
      by_cases hs : isIdentStart d = true
      · rw [if_pos hs, substNamed_snd]
        have := takeIdent_snd_length r
        simp only [List.length_cons]
        omega
      · rw [if_neg hs]
        by_cases hb : d = lbrace
        · rw [if_pos hb]
          have := substBracedTok_length m r
          simp only [List.length_cons]
          omega
        · rw [if_neg hb]

theorem substStep_length (m : List (String × String)) (c : Char)
    (rest : List Char) :
    (substStep m (c :: rest)).2.length < rest.length + 1 := by
  rw [substStep]
  by_cases hc : c = '$'
  · rw [if_pos hc]
    have := substDollar_length m rest
    omega
  · rw [if_neg hc]
    exact Nat.lt_succ_self _

theorem substAux_nil (m : List (String × String)) (f : Nat) :
    substAux m f [] = [] := by
  cases f <;> rfl

theorem substAux_congr (m : List (String × String)) :
    ∀ f g l, l.length ≤ f → l.length ≤ g → substAux m f l = substAux m g l := by
  intro f
  induction f with
  | zero =>
    intro g l hf _
    have : l = [] := List.length_eq_zero.mp (Nat.le_zero.mp hf)
    subst this
    rw [substAux_nil, substAux_nil]
  | succ f ih =>
    intro g l hf hg
    match l with
    | [] => rw [substAux_nil, substAux_nil]
    | c :: rest =>
      match g with
      | 0 => exact absurd hg (by simp)
      | g + 1 =>
        have hstep := substStep_length m c rest
        simp only [List.length_cons] at hf hg
        show (substStep m (c :: rest)).1 ++
            substAux m f (substStep m (c :: rest)).2 =
          (substStep m (c :: rest)).1 ++
            substAux m g (substStep m (c :: rest)).2
        exact congrArg _
          (ih g (substStep m (c :: rest)).2 (by omega) (by omega))

theorem substStep_lit (m : List (String × String)) {c : Char}
    (rest : List Char) (hc : ¬ c = '$') :
    substStep m (c :: rest) = ([c], rest) := by
  rw [substStep, if_neg hc]

theorem substStep_escaped (m : List (String × String)) (rest : List Char) :
    substStep m ('$' :: '$' :: rest) = (['$'], rest) := by
  rw [substStep, if_pos rfl, substDollar, if_pos rfl]

theorem substStep_invalid (m : List (String × String)) {d : Char}
    (rest : List Char) (h1 : ¬ d = '$') (h2 : isIdentStart d = false)
    (h3 : ¬ d = lbrace) :
    substStep m ('$' :: d :: rest) = (['$'], d :: rest) := by
  rw [substStep, if_pos rfl, substDollar, if_neg h1]
  rw [h2]
  simp only [Bool.false_eq_true, if_false, if_neg h3]

theorem substStep_named (m : List (String × String)) {c : Char}
    (tl rest : List Char) (hc : isIdentStart c = true)
    (htl : ∀ x ∈ tl, isIdentChar x = true)
    (hrest : ∀ d, rest.head? = some d → isIdentChar d = false) :
    substStep m ('$' :: c :: (tl ++ rest)) =
      match lookupVar m (String.mk (c :: tl)) with
      | some v => (v.data, rest)
      | none => ('$' :: c :: tl, rest) := by
  have hcd : ¬ c = '$' := by
    intro h
    rw [h] at hc
    exact absurd hc (by decide)
  have hti : takeIdent (tl ++ rest) = (tl, rest) := by
    cases rest with
    | nil => simpa using takeIdent_all tl htl
    | cons d r => exact takeIdent_append_not tl d r htl (hrest d rfl)
  rw [substStep, if_pos rfl, substDollar, if_neg hcd, if_pos hc, substNamed,
    hti]

theorem substStep_braced (m : List (String × String)) {c : Char}
    (tl rest : List Char) (hc : isIdentStart c = true)
    (htl : ∀ x ∈ tl, isIdentChar x = true) :
    substStep m ('$' :: lbrace :: (c :: tl ++ rbrace :: rest)) =
      match lookupVar m (String.mk (c :: tl)) with
      | some v => (v.data, rest)
      | none => ('$' :: lbrace :: (c :: tl ++ [rbrace]), rest) := by
  have h1 : ¬ lbrace = '$' := by decide
  have h2 : isIdentStart lbrace = false := by decide
  have hti : takeIdent (tl ++ rbrace :: rest) = (tl, rbrace :: rest) :=
    takeIdent_append_not tl rbrace rest htl (by decide)
  have hpb : parseBraced (c :: (tl ++ rbrace :: rest)) = some (c :: tl, rest) := by
    rw [parseBraced]
    rw [if_pos hc, hti]
    simp
  rw [substStep, if_pos rfl, substDollar, if_neg h1]
  rw [h2]
  simp only [Bool.false_eq_true, if_false, eq_self_iff_true, if_true]
  rw [substBracedTok]
  simp only [List.cons_append]
  rw [hpb]
  rfl

theorem subst_nil (m : List (String × String)) : subst m [] = [] := rfl

theorem subst_cons (m : List (String × String)) (c : Char)
    (rest : List Char) :
    subst m (c :: rest) =
      (substStep m (c :: rest)).1 ++ subst m (substStep m (c :: rest)).2 := by
  have hstep := substStep_length m c rest
  show substAux m ((c :: rest).length) (c :: rest) = _
  simp only [List.length_cons]
  show (substStep m (c :: rest)).1 ++
      substAux m rest.length (substStep m (c :: rest)).2 = _
  exact congrArg _
    (substAux_congr m rest.length (substStep m (c :: rest)).2.length
      (substStep m (c :: rest)).2 (by omega) (by omega))

theorem subst_lit (m : List (String × String)) {c : Char} (rest : List Char)
    (hc : ¬ c = '$') : subst m (c :: rest) = c :: subst m rest := by
  rw [subst_cons, substStep_lit m rest hc]
  rfl

theorem subst_escaped (m : List (String × String)) (rest : List Char) :
    subst m ('$' :: '$' :: rest) = '$' :: subst m rest := by
  rw [subst_cons, substStep_escaped]
  rfl

theorem subst_invalid (m : List (String × String)) {d : Char}
    (rest : List Char) (h1 : ¬ d = '$') (h2 : isIdentStart d = false)
    (h3 : ¬ d = lbrace) :
    subst m ('$' :: d :: rest) = '$' :: subst m (d :: rest) := by
  rw [subst_cons, substStep_invalid m rest h1 h2 h3]
  rfl

theorem subst_named_bound (m : List (String × String)) {c : Char}
    (tl rest : List Char) (v : String) (hc : isIdentStart c = true)
    (htl : ∀ x ∈ tl, isIdentChar x = true)
    (hrest : ∀ d, rest.head? = some d → isIdentChar d = false)
    (hlk : lookupVar m (String.mk (c :: tl)) = some v) :
    subst m ('$' :: c :: (tl ++ rest)) = v.data ++ subst m rest := by
  rw [subst_cons, substStep_named m tl rest hc htl hrest, hlk]

theorem subst_named_unbound (m : List (String × String)) {c : Char}
    (tl rest : List Char) (hc : isIdentStart c = true)
    (htl : ∀ x ∈ tl, isIdentChar x = true)
    (hrest : ∀ d, rest.head? = some d → isIdentChar d = false)
    (hlk : lookupVar m (String.mk (c :: tl)) = none) :
    subst m ('$' :: c :: (tl ++ rest)) = '$' :: c :: (tl ++ subst m rest) := by
  rw [subst_cons, substStep_named m tl rest hc htl hrest, hlk]
  rfl

theorem subst_braced_bound (m : List (String × String)) {c : Char}
    (tl rest : List Char) (v : String) (hc : isIdentStart c = true)
    (htl : ∀ x ∈ tl, isIdentChar x = true)
    (hlk : lookupVar m (String.mk (c :: tl)) = some v) :
    subst m ('$' :: lbrace :: (c :: tl ++ rbrace :: rest)) =
      v.data ++ subst m rest := by
  rw [subst_cons, substStep_braced m tl rest hc htl, hlk]

theorem subst_braced_unbound (m : List (String × String)) {c : Char}
    (tl rest : List Char) (hc : isIdentStart c = true)
    (htl : ∀ x ∈ tl, isIdentChar x = true)
    (hlk : lookupVar m (String.mk (c :: tl)) = none) :
    subst m ('$' :: lbrace :: (c :: tl ++ rbrace :: rest)) =
      '$' :: lbrace :: (c :: tl ++ rbrace :: subst m rest) := by
  rw [subst_cons, substStep_braced m tl rest hc htl, hlk]
  simp [List.append_assoc]

theorem data_append (s t : String) : (s ++ t).data = s.data ++ t.data := rfl

theorem data_safe_substitute (m : List (String × String)) (t : String) :
    (safe_substitute m t).data = subst m t.data := rfl

theorem data_dollar_lbrace : ("$\x7b" : String).data = ['$', lbrace] := by
  decide

theorem data_rbrace : ("\x7d" : String).data = [rbrace] := by decide

theorem data_dollar : ("$" : String).data = ['$'] := by decide

theorem fillSlotAux_contains (arg : List Char) :
    ∀ l : List Char, List.IsInfix ['%', 's'] l →
      List.IsInfix arg (fillSlotAux arg l) := by
  intro l h
  induction l with
  | nil => exact absurd h (by decide)
  | cons c rest ih =>
    cases rest with
    | nil =>
      have := h.length_le
      simp at this
    | cons d r =>
      by_cases hc : c = '%'
      · by_cases hd : d = 's'
        · subst hc; subst hd
          rw [fillSlotAux, if_pos rfl, if_pos rfl]
          exact (List.prefix_append arg r).isInfix
        · subst hc
          have h' : List.IsInfix ['%', 's'] (d :: r) := by
            rcases List.infix_cons_iff.mp h with hpre | hinf
            · obtain ⟨hds, -⟩ := List.cons_prefix_cons.mp
                (List.cons_prefix_cons.mp hpre).2
              exact absurd hds.symm hd
            · exact hinf
          rw [fillSlotAux, if_pos rfl, if_neg hd]
          exact List.infix_cons (ih h')
      · have h' : List.IsInfix ['%', 's'] (d :: r) := by
          rcases List.infix_cons_iff.mp h with hpre | hinf
          · exact absurd (List.cons_prefix_cons.mp hpre).1.symm hc
          · exact hinf
        rw [fillSlotAux, if_neg hc]
        exact List.infix_cons (ih h')

theorem fillSlot_contains (s arg : String)
    (h : List.IsInfix ['%', 's'] s.data) :
    List.IsInfix arg.data (fillSlot s arg).data :=
  fillSlotAux_contains arg.data s.data h

theorem bashHead_none (col : Collaborators) (args : Args)
    (pv : List (String × String)) (hl : args.license = none) :
    Package.bashHead col args pv =
      Except.ok (safe_substitute pv col.HEAD) := by
  rw [Package.bashHead, hl]

theorem bashHead_some (col : Collaborators) (args : Args)
    (pv : List (String × String)) (lic : String)
    (hl : args.license = some lic) :
    Package.bashHead col args pv =
      (col.license_block lic pv '#').map
        (fun blk => fillSlot (safe_substitute pv col.HEAD_LICENSE) blk) := by
  rw [Package.bashHead, hl]

theorem prepare_ok_elim (col : Collaborators) (args : Args)
    (pv : List (String × String)) (fs : List FileSpec)
    (h : Package.prepare_package_files col args pv = Except.ok fs) :
    ∃ hd, Package.bashHead col args pv = Except.ok hd ∧
      fs = Package.packageFiles col args pv hd
        (safe_substitute pv col.TAIL) := by
  rw [Package.prepare_package_files] at h
  cases hb : Package.bashHead col args pv with
  | error e => rw [hb] at h; exact absurd h (by simp [Except.map])
  | ok hd =>
    rw [hb] at h
    simp only [Except.map] at h
    exact ⟨hd, rfl, (Except.ok.inj h).symm⟩

/-- C2: for every configuration whose construction succeeds, the manifest
builder registers exactly nine file specifications, with destination
subdirectories four times `debian` (postinst, postrm, preinst, prerm),
twice `mount` (build-package, clean-package), twice `misc` (cron and initd)
and one root entry with the empty-string subdirectory (package.conf). -/
theorem package_registers_nine (col : Collaborators) (args : Args)
    (pv : List (String × String)) (fs : List FileSpec)
    (h : Package.prepare_package_files col args pv = Except.ok fs) :
    fs.length = 9 ∧
      fs.map FileSpec.path =
        ["debian", "debian", "debian", "debian", "mount", "mount", "misc",
         "misc", ""] := by
  obtain ⟨hd, -, rfl⟩ := prepare_ok_elim col args pv fs h
  exact ⟨rfl, rfl⟩

/-- Witness for C2 at a concrete configuration (no license, non-native
language). -/
theorem package_registers_nine_witness :
    (Package.packageFiles wCol wArgs [] (safe_substitute [] wCol.HEAD)
        (safe_substitute [] wCol.TAIL)).map FileSpec.path =
      ["debian", "debian", "debian", "debian", "mount", "mount", "misc",
       "misc", ""] :=
  (package_registers_nine wCol wArgs []
    (Package.packageFiles wCol wArgs [] (safe_substitute [] wCol.HEAD)
      (safe_substitute [] wCol.TAIL)) rfl).2

/-- C3: the build-package body equals the `BUILD_PACKAGE` template with the
variable bindings applied exactly when the configured language equals the
recognized compiled/native marker, and is absent otherwise, while the
clean-package and package-manifest bodies are rendered template text
regardless of the language. -/
theorem package_build_body_dispatch (col : Collaborators) (args : Args)
    (pv : List (String × String)) (fs : List FileSpec)
    (h : Package.prepare_package_files col args pv = Except.ok fs) :
    (fs.map FileSpec.body)[4]? =
      some (if args.language = col.C_LANGUAGE
        then some (safe_substitute pv BUILD_PACKAGE) else none) ∧
    (fs.map FileSpec.body)[5]? =
      some (some (safe_substitute pv CLEAN_PACKAGE)) ∧
    (fs.map FileSpec.body)[8]? =
      some (some (safe_substitute pv PACKAGE_CONF)) := by
  obtain ⟨hd, -, rfl⟩ := prepare_ok_elim col args pv fs h
  exact ⟨rfl, rfl, rfl⟩

/-- Witness for C3 at a concrete non-native configuration: the
build-package body is absent. -/
theorem package_build_body_dispatch_witness :
    ((Package.packageFiles wCol wArgs [] (safe_substitute [] wCol.HEAD)
        (safe_substitute [] wCol.TAIL)).map FileSpec.body)[4]? =
      some none := by
  have h := (package_build_body_dispatch wCol wArgs []
    (Package.packageFiles wCol wArgs [] (safe_substitute [] wCol.HEAD)
      (safe_substitute [] wCol.TAIL)) rfl).1
  simpa [wArgs, wCol] using h

/-- C8: the manifest builder raises no error of its own: construction with
no license always succeeds deterministically; when the license renderer
fails, its error propagates unchanged (and, the head being computed before
any registration, the failing run registers no file specification); and
every error of the builder comes from the license renderer. -/
theorem package_error_only_from_license (col : Collaborators) (args : Args)
    (pv : List (String × String)) :
    (args.license = none →
      Package.prepare_package_files col args pv =
        Except.ok (Package.packageFiles col args pv
          (safe_substitute pv col.HEAD) (safe_substitute pv col.TAIL))) ∧
    (∀ lic e, args.license = some lic →
      col.license_block lic pv '#' = Except.error e →
      Package.prepare_package_files col args pv = Except.error e) ∧
    (∀ e, Package.prepare_package_files col args pv = Except.error e →
      ∃ lic, args.license = some lic ∧
        col.license_block lic pv '#' = Except.error e) := by
  refine ⟨?_, ?_, ?_⟩
  · intro hl
    rw [Package.prepare_package_files, bashHead_none col args pv hl]
    rfl
  · intro lic e hl he
    rw [Package.prepare_package_files, bashHead_some col args pv lic hl, he]
    rfl
  · intro e he
    rw [Package.prepare_package_files] at he
    cases hl : args.license with
    | none =>
      rw [bashHead_none col args pv hl] at he
      exact absurd he (by simp [Except.map])
    | some lic =>
      refine ⟨lic, rfl, ?_⟩
      rw [bashHead_some col args pv lic hl] at he
      cases hb : col.license_block lic pv '#' with
      | error e' =>
        rw [hb] at he
        simp only [Except.map] at he
        rw [Except.error.inj he]
      | ok blk =>
        rw [hb] at he
        simp only [Except.map] at he
        exact absurd he (by simp)

/-- Witness for C8 at a concrete failing-license configuration. -/
theorem package_error_only_from_license_witness :
    Package.prepare_package_files wColErr wArgsLic [] =
      Except.error "unknown license" :=
  (package_error_only_from_license wColErr wArgsLic []).2.1 "gpl"
    "unknown license" rfl rfl

/-- C9: constructing the manifest twice from equal configurations (equal
collaborators, arguments and variable bindings) yields equal results, and
in particular byte-identical lists of bodies, heads, tails, filenames,
subdirectories and executable flags. -/
theorem package_deterministic (col₁ col₂ : Collaborators)
    (args₁ args₂ : Args) (pv₁ pv₂ : List (String × String))
    (h1 : col₁ = col₂) (h2 : args₁ = args₂) (h3 : pv₁ = pv₂) :
    (Package.prepare_package_files col₁ args₁ pv₁ =
      Package.prepare_package_files col₂ args₂ pv₂) ∧
    Package.root_dir args₁ = Package.root_dir args₂ ∧
    ∀ fs₁ fs₂,
      Package.prepare_package_files col₁ args₁ pv₁ = Except.ok fs₁ →
      Package.prepare_package_files col₂ args₂ pv₂ = Except.ok fs₂ →
      fs₁.map FileSpec.body = fs₂.map FileSpec.body ∧
      fs₁.map FileSpec.head = fs₂.map FileSpec.head ∧
      fs₁.map FileSpec.tail = fs₂.map FileSpec.tail ∧
      fs₁.map FileSpec.filename = fs₂.map FileSpec.filename ∧
      fs₁.map FileSpec.path = fs₂.map FileSpec.path ∧
      fs₁.map FileSpec.executable = fs₂.map FileSpec.executable := by
  subst h1; subst h2; subst h3
  refine ⟨rfl, rfl, ?_⟩
  intro fs₁ fs₂ ha hb
  rw [ha] at hb
  obtain rfl := Except.ok.inj hb
  exact ⟨rfl, rfl, rfl, rfl, rfl, rfl⟩

/-- Witness for C9 at a concrete configuration. -/
theorem package_deterministic_witness :
    Package.prepare_package_files wCol wArgs [] =
      Package.prepare_package_files wCol wArgs [] :=
  (package_deterministic wCol wCol wArgs wArgs [] [] rfl rfl rfl).1

/-- C10: of the nine registered file specifications exactly two are
non-executable, the cron entry and the package manifest; the other seven
carry the executable flag; and the four Debian lifecycle scripts have
absent bodies and share head and tail, so their composed content is
identical. -/
theorem package_executable_flags (col : Collaborators) (args : Args)
    (pv : List (String × String)) (fs : List FileSpec)
    (h : Package.prepare_package_files col args pv = Except.ok fs) :
    fs.map FileSpec.executable =
      [true, true, true, true, true, true, false, true, false] ∧
    fs.map FileSpec.filename =
      ["postinst", "postrm", "preinst", "prerm", "build-package",
       "clean-package", Package.underscored_name args ++ "_cron",
       Package.underscored_name args ++ "_initd", "package.conf"] ∧
    (fs.take 4).map FileSpec.body = [none, none, none, none] ∧
    ∀ x ∈ fs.take 4, ∀ y ∈ fs.take 4, composedBody x = composedBody y := by
  obtain ⟨hd, -, rfl⟩ := prepare_ok_elim col args pv fs h
  refine ⟨rfl, rfl, rfl, ?_⟩
  intro x hx y hy
  simp only [Package.packageFiles, List.take_succ_cons, List.take_zero,
    List.mem_cons, List.not_mem_nil, or_false] at hx hy
  rcases hx with rfl|rfl|rfl|rfl <;> rcases hy with rfl|rfl|rfl|rfl <;> rfl

/-- Witness for C10 at a concrete configuration. -/
theorem package_executable_flags_witness :
    (Package.packageFiles wCol wArgs [] (safe_substitute [] wCol.HEAD)
        (safe_substitute [] wCol.TAIL)).map FileSpec.executable =
      [true, true, true, true, true, true, false, true, false] :=
  (package_executable_flags wCol wArgs []
    (Package.packageFiles wCol wArgs [] (safe_substitute [] wCol.HEAD)
      (safe_substitute [] wCol.TAIL)) rfl).1

/-- C4: when no license identifier is configured, the shared head text is
the plain shell-script header template with the variable bindings applied
by safe substitution, verbatim; every registered file specification carries
exactly that head where a head is passed at all. -/
theorem package_head_no_license (col : Collaborators) (args : Args)
    (pv : List (String × String)) (fs : List FileSpec)
    (hlic : args.license = none)
    (h : Package.prepare_package_files col args pv = Except.ok fs) :
    Package.bashHead col args pv =
      Except.ok (safe_substitute pv col.HEAD) ∧
    ∀ f ∈ fs, f.head = some (safe_substitute pv col.HEAD) ∨
      f.head = none := by
  have hb := bashHead_none col args pv hlic
  refine ⟨hb, ?_⟩
  obtain ⟨hd, hb', rfl⟩ := prepare_ok_elim col args pv fs h
  have hhd : hd = safe_substitute pv col.HEAD := by
    rw [hb] at hb'
    exact (Except.ok.inj hb').symm
  subst hhd
  intro f hf
  simp only [Package.packageFiles, List.mem_cons, List.not_mem_nil,
    or_false] at hf
  rcases hf with rfl|rfl|rfl|rfl|rfl|rfl|rfl|rfl|rfl <;> simp

/-- Witness for C4 at a concrete license-free configuration. -/
theorem package_head_no_license_witness :
    Package.bashHead wCol wArgs [] =
      Except.ok (safe_substitute [] wCol.HEAD) :=
  (package_head_no_license wCol wArgs []
    (Package.packageFiles wCol wArgs [] (safe_substitute [] wCol.HEAD)
      (safe_substitute [] wCol.TAIL)) rfl rfl).1

/-- C5: with a license identifier for which the license renderer succeeds,
the head is the license-aware header template with bindings applied and its
secondary insertion slot filled by the rendered license block (requested
with the identifier, the bindings and comment character `#`); when the
substituted header template contains the slot, the license block is a
contiguous substring of the resulting head. -/
theorem package_head_with_license (col : Collaborators) (args : Args)
    (pv : List (String × String)) (lic blk : String) (fs : List FileSpec)
    (hlic : args.license = some lic)
    (hblk : col.license_block lic pv '#' = Except.ok blk)
    (h : Package.prepare_package_files col args pv = Except.ok fs) :
    Package.bashHead col args pv =
      Except.ok (fillSlot (safe_substitute pv col.HEAD_LICENSE) blk) ∧
    (∀ f ∈ fs,
        f.head = some (fillSlot (safe_substitute pv col.HEAD_LICENSE) blk) ∨
        f.head = none) ∧
    (List.IsInfix ['%', 's'] (safe_substitute pv col.HEAD_LICENSE).data →
      List.IsInfix blk.data
        ((fillSlot (safe_substitute pv col.HEAD_LICENSE) blk).data)) := by
  have hb : Package.bashHead col args pv =
      Except.ok (fillSlot (safe_substitute pv col.HEAD_LICENSE) blk) := by
    rw [bashHead_some col args pv lic hlic, hblk]
    rfl
  refine ⟨hb, ?_, fun hs => fillSlot_contains _ _ hs⟩
  obtain ⟨hd, hb', rfl⟩ := prepare_ok_elim col args pv fs h
  have hhd : hd = fillSlot (safe_substitute pv col.HEAD_LICENSE) blk := by
    rw [hb] at hb'
    exact (Except.ok.inj hb').symm
  subst hhd
  intro f hf
  simp only [Package.packageFiles, List.mem_cons, List.not_mem_nil,
    or_false] at hf
  rcases hf with rfl|rfl|rfl|rfl|rfl|rfl|rfl|rfl|rfl <;> simp

/-- Witness for C5 at a concrete configuration with a succeeding license
renderer: the rendered license block is a substring of the composed head. -/
theorem package_head_with_license_witness :
    List.IsInfix ("LB" : String).data
      ((fillSlot (safe_substitute [] wCol.HEAD_LICENSE) "LB").data) :=
  (package_head_with_license wCol wArgsLic [] "gpl" "LB"
    (Package.packageFiles wCol wArgsLic []
      (fillSlot (safe_substitute [] wCol.HEAD_LICENSE) "LB")
      (safe_substitute [] wCol.TAIL)) rfl rfl rfl).2.2 (by decide)

/-- C6: the root directory name is the fixed prefix literal, a hyphen, the
configured name-prefix and the project name with underscores replaced by
hyphens, while the cron/init filename prefix is the project name with
hyphens replaced by underscores; at the spec examples, prefix `p-` with
project `my_app` yields root `package-p-my-app`, and project `my-app`
yields cron/init prefix `my_app`. -/
theorem package_naming_asymmetry :
    (∀ args : Args,
        Package.current_dir args =
          PREFIX ++ "-" ++ args.prefixArg ++
            replaceChar '_' '-' args.project_name) ∧
    (∀ lang lic, Package.current_dir ⟨"my_app", "p-", lang, lic⟩ =
        "package-p-my-app") ∧
    (∀ lang lic, Package.underscored_name ⟨"my-app", "", lang, lic⟩ =
        "my_app") ∧
    (∀ (col : Collaborators) (pv : List (String × String))
        (bash_head bash_tail lang : String) (lic : Option String),
        (Package.packageFiles col ⟨"my-app", "", lang, lic⟩ pv bash_head
            bash_tail).map FileSpec.filename =
          ["postinst", "postrm", "preinst", "prerm", "build-package",
           "clean-package", "my_app_cron", "my_app_initd",
           "package.conf"]) := by
  refine ⟨fun args => rfl, fun lang lic => rfl, fun lang lic => rfl, ?_⟩
  intro col pv bash_head bash_tail lang lic
  rfl

theorem validIdent_destruct (name : String) (h1 : validIdent name = true) :
    ∃ c tl, name.data = c :: tl ∧ isIdentStart c = true ∧
      ∀ x ∈ tl, isIdentChar x = true := by
  cases hnd : name.data with
  | nil =>
    simp only [validIdent, hnd] at h1
    exact Bool.noConfusion h1
  | cons c tl =>
    simp only [validIdent, hnd, Bool.and_eq_true, List.all_eq_true] at h1
    exact ⟨c, tl, rfl, h1.1, fun x hx => h1.2 x hx⟩

theorem substitute_braced_preserved (m : List (String × String))
    (name rest : String) (h1 : validIdent name = true)
    (h2 : lookupVar m name = none) :
    safe_substitute m ("$\x7b" ++ name ++ "\x7d" ++ rest) =
      "$\x7b" ++ name ++ "\x7d" ++ safe_substitute m rest := by
  obtain ⟨c, tl, hnd, hc, htl⟩ := validIdent_destruct name h1
  have hmk : String.mk (c :: tl) = name := by rw [← hnd]
  have hlk : lookupVar m (String.mk (c :: tl)) = none := by
    rw [hmk]; exact h2
  apply String.ext
  rw [data_safe_substitute]
  have hdata : ("$\x7b" ++ name ++ "\x7d" ++ rest).data =
      '$' :: lbrace :: (c :: tl ++ rbrace :: rest.data) := by
    rw [data_append, data_append, data_append, data_dollar_lbrace,
      data_rbrace, hnd]
    simp
  rw [hdata, subst_braced_unbound m tl rest.data hc htl hlk]
  rw [data_append, data_append, data_append, data_dollar_lbrace,
    data_rbrace, hnd, data_safe_substitute]
  simp

theorem substitute_named_end_unbound (m : List (String × String))
    (name : String) (h1 : validIdent name = true)
    (h2 : lookupVar m name = none) :
    safe_substitute m ("$" ++ name) = "$" ++ name := by
  obtain ⟨c, tl, hnd, hc, htl⟩ := validIdent_destruct name h1
  have hmk : String.mk (c :: tl) = name := by rw [← hnd]
  have hlk : lookupVar m (String.mk (c :: tl)) = none := by
    rw [hmk]; exact h2
  apply String.ext
  rw [data_safe_substitute]
  have hdata : ("$" ++ name).data = '$' :: c :: (tl ++ []) := by
    rw [data_append, data_dollar, hnd]
    simp
  rw [hdata, subst_named_unbound m tl [] hc htl (fun d hd => by simp at hd)
    hlk]
  rw [subst_nil]

theorem substitute_named_end_bound (m : List (String × String))
    (name v : String) (h1 : validIdent name = true)
    (h2 : lookupVar m name = some v) :
    safe_substitute m ("$" ++ name) = v := by
  obtain ⟨c, tl, hnd, hc, htl⟩ := validIdent_destruct name h1
  have hmk : String.mk (c :: tl) = name := by rw [← hnd]
  have hlk : lookupVar m (String.mk (c :: tl)) = some v := by
    rw [hmk]; exact h2
  apply String.ext
  rw [data_safe_substitute]
  have hdata : ("$" ++ name).data = '$' :: c :: (tl ++ []) := by
    rw [data_append, data_dollar, hnd]
    simp
  rw [hdata, subst_named_bound m tl [] v hc htl (fun d hd => by simp at hd)
    hlk]
  rw [subst_nil]
  simp

theorem substitute_invalid_char (m : List (String × String)) (c : Char)
    (l : List Char) (hs : isIdentStart c = false) (hd : ¬ c = '$')
    (hb : ¬ c = lbrace) :
    safe_substitute m (String.mk ('$' :: c :: l)) =
      "$" ++ safe_substitute m (String.mk (c :: l)) := by
  apply String.ext
  rw [data_safe_substitute]
  show subst m ('$' :: c :: l) = _
  rw [subst_invalid m l hd hs hb]
  rfl

/-- C1: substitution is safe and partial: it is a total function of the
template and the variable bindings (the embedding returns a result for
every input, mirroring that `safe_substitute` never raises), and a
placeholder token whose name has no binding is left in the output
byte-for-byte: an unbound braced token `$\x7bname\x7d` survives unchanged in
front of any continuation, and so does an unbound named token `$name`. -/
theorem safe_substitution_unbound_preserved (m : List (String × String))
    (name rest : String) (h1 : validIdent name = true)
    (h2 : lookupVar m name = none) :
    safe_substitute m ("$\x7b" ++ name ++ "\x7d" ++ rest) =
      "$\x7b" ++ name ++ "\x7d" ++ safe_substitute m rest ∧
    safe_substitute m ("$" ++ name) = "$" ++ name :=
  ⟨substitute_braced_preserved m name rest h1 h2,
   substitute_named_end_unbound m name h1 h2⟩

/-- Witness for C1: an unbound `$\x7bundefined_token\x7d` remains literally
present under bindings that bind only `PROJECT_NAME`. -/
theorem safe_substitution_unbound_preserved_witness :
    safe_substitute [("PROJECT_NAME", "demo")]
        ("$\x7b" ++ "undefined_token" ++ "\x7d" ++ "") =
      "$\x7b" ++ "undefined_token" ++ "\x7d" ++
        safe_substitute [("PROJECT_NAME", "demo")] "" :=
  (safe_substitution_unbound_preserved [("PROJECT_NAME", "demo")]
    "undefined_token" "" (by decide) (by decide)).1

theorem isIdentChar_of_start (c : Char) (h : isIdentStart c = true) :
    isIdentChar c = true := by
  rw [isIdentChar, h, Bool.true_or]

theorem takeIdent_fst_all (l : List Char) :
    ∀ x ∈ (takeIdent l).1, isIdentChar x = true := by
  induction l with
  | nil => intro x hx; simp [takeIdent] at hx
  | cons c rest ih =>
    by_cases h : isIdentChar c = true
    · intro x hx
      simp only [takeIdent, h, if_true] at hx
      rcases List.mem_cons.mp hx with rfl | hx'
      · exact h
      · exact ih x hx'
    · intro x hx
      simp [takeIdent, h] at hx

theorem takeIdent_snd_head (l : List Char) (c : Char) (r : List Char)
    (h : (takeIdent l).2 = c :: r) : isIdentChar c = false := by
  induction l with
  | nil => simp [takeIdent] at h
  | cons d t ih =>
    by_cases hd : isIdentChar d = true
    · apply ih
      simpa [takeIdent, hd] using h
    · simp only [takeIdent, if_neg hd] at h
      obtain ⟨h1, -⟩ := List.cons.inj h
      subst h1
      cases hic : isIdentChar d with
      | false => rfl
      | true => exact absurd hic hd

theorem takeIdent_snd_nil_all (l : List Char) (h : (takeIdent l).2 = []) :
    ∀ x ∈ l, isIdentChar x = true := by
  intro x hx
  have hsplit := takeIdent_append l
  rw [h, List.append_nil] at hsplit
  exact takeIdent_fst_all l x (by rw [hsplit]; exact hx)

theorem takeIdent_snd_ne_nil (l : List Char) (x : Char) (hx : x ∈ l)
    (hni : isIdentChar x = false) : (takeIdent l).2 ≠ [] := by
  intro h
  have := takeIdent_snd_nil_all l h x hx
  rw [this] at hni
  exact Bool.noConfusion hni

theorem takeIdent_append_stop (l b : List Char) (c : Char) (r : List Char)
    (h : (takeIdent l).2 = c :: r) :
    takeIdent (l ++ b) = ((takeIdent l).1, c :: (r ++ b)) := by
  have hc := takeIdent_snd_head l c r h
  have hsplit := takeIdent_append l
  rw [h] at hsplit
  conv_lhs => rw [← hsplit]
  rw [List.append_assoc, List.cons_append]
  exact takeIdent_append_not (takeIdent l).1 c (r ++ b)
    (takeIdent_fst_all l) hc

theorem parseBraced_append_some (l b nm rem : List Char)
    (h : parseBraced l = some (nm, rem)) :
    parseBraced (l ++ b) = some (nm, rem ++ b) := by
  match l with
  | [] => simp [parseBraced] at h
  | c :: rest =>
    by_cases hs : isIdentStart c = true
    · rw [parseBraced, if_pos hs] at h
      cases hp : (takeIdent rest).2 with
      | nil => simp only [hp] at h; exact absurd h (by simp)
      | cons d r' =>
        simp only [hp] at h
        by_cases hd : d = rbrace
        · rw [if_pos hd] at h
          have h' := Option.some.inj h
          have h1 : c :: (takeIdent rest).1 = nm := congrArg Prod.fst h'
          have h2 : r' = rem := congrArg Prod.snd h'
          rw [List.cons_append, parseBraced, if_pos hs,
            takeIdent_append_stop rest b d r' hp]
          show (if d = rbrace
            then some (c :: (takeIdent rest).1, r' ++ b) else none) =
            some (nm, rem ++ b)
          rw [if_pos hd, h1, h2]
        · rw [if_neg hd] at h
          exact absurd h (by simp)
    · rw [parseBraced, if_neg hs] at h
      exact absurd h (by simp)

theorem parseBraced_append_none (l b : List Char) (x : Char) (hx : x ∈ l)
    (hni : isIdentChar x = false) (h : parseBraced l = none) :
    parseBraced (l ++ b) = none := by
  match l with
  | [] => exact absurd hx (by simp)
  | c :: rest =>
    by_cases hs : isIdentStart c = true
    · have hxr : x ∈ rest := by
        rcases List.mem_cons.mp hx with rfl | hx'
        · rw [isIdentChar_of_start x hs] at hni
          exact Bool.noConfusion hni
        · exact hx'
      have hne := takeIdent_snd_ne_nil rest x hxr hni
      cases hp : (takeIdent rest).2 with
      | nil => exact absurd hp hne
      | cons d r' =>
        rw [parseBraced, if_pos hs] at h
        simp only [hp] at h
        by_cases hd : d = rbrace
        · rw [if_pos hd] at h
          exact absurd h (by simp)
        · rw [List.cons_append, parseBraced, if_pos hs,
            takeIdent_append_stop rest b d r' hp]
          show (if d = rbrace
            then some (c :: (takeIdent rest).1, r' ++ b) else none) = none
          rw [if_neg hd]
    · rw [List.cons_append, parseBraced, if_neg hs]

theorem substNamed_eq (m : List (String × String)) (d : Char)
    (r tk s : List Char) (h : takeIdent r = (tk, s)) :
    substNamed m d r =
      match lookupVar m (String.mk (d :: tk)) with
      | some v => (v.data, s)
      | none => ('$' :: d :: tk, s) := by
  rw [substNamed, h]

theorem substBracedTok_eq_some (m : List (String × String))
    (r nm rem : List Char) (h : parseBraced r = some (nm, rem)) :
    substBracedTok m r =
      match lookupVar m (String.mk nm) with
      | some v => (v.data, rem)
      | none => ('$' :: lbrace :: (nm ++ [rbrace]), rem) := by
  rw [substBracedTok, h]

theorem substBracedTok_eq_none (m : List (String × String)) (r : List Char)
    (h : parseBraced r = none) : substBracedTok m r = (['$'], lbrace :: r) := by
  rw [substBracedTok, h]

theorem substStep_braced_invalid (m : List (String × String)) (r : List Char)
    (hp : parseBraced r = none) :
    substStep m ('$' :: lbrace :: r) = (['$'], lbrace :: r) := by
  have h1 : ¬ lbrace = '$' := by decide
  have h2 : isIdentStart lbrace = false := by decide
  rw [substStep, if_pos rfl, substDollar, if_neg h1]
  rw [h2]
  simp only [Bool.false_eq_true, if_false, eq_self_iff_true, if_true]
  rw [substBracedTok, hp]

theorem subst_braced_invalid (m : List (String × String)) (r : List Char)
    (hp : parseBraced r = none) :
    subst m ('$' :: lbrace :: r) = '$' :: subst m (lbrace :: r) := by
  rw [subst_cons, substStep_braced_invalid m r hp]
  rfl

theorem substitute_braced_invalid_tok (m : List (String × String))
    (r : List Char) (hp : parseBraced r = none) :
    safe_substitute m (String.mk ('$' :: lbrace :: r)) =
      "$" ++ safe_substitute m (String.mk (lbrace :: r)) := by
  apply String.ext
  rw [data_safe_substitute]
  show subst m ('$' :: lbrace :: r) = _
  rw [subst_braced_invalid m r hp]
  rfl

theorem subst_dollarfree (m : List (String × String)) :
    ∀ (pre r : List Char), (∀ c ∈ pre, ¬ c = '$') →
      subst m (pre ++ r) = pre ++ subst m r := by
  intro pre
  induction pre with
  | nil => intro r h; simp
  | cons c p ih =>
    intro r h
    rw [List.cons_append, subst_lit m (p ++ r) (h c (List.mem_cons_self c p)),
      ih r (fun x hx => h x (List.mem_cons_of_mem c hx))]
    rfl

theorem getLastq_tail (a : Char) (l : List Char) (x : Char) (hne : l ≠ [])
    (h : (a :: l).getLast? = some x) : l.getLast? = some x := by
  cases l with
  | nil => exact absurd rfl hne
  | cons b t => rw [List.getLast?_cons_cons] at h; exact h

theorem getLastq_mem (l : List Char) (x : Char) (h : l.getLast? = some x) :
    x ∈ l := by
  induction l with
  | nil => exact absurd h (by simp)
  | cons a t ih =>
    cases t with
    | nil =>
      have : a = x := by simpa using h
      simp [this]
    | cons b t' =>
      rw [List.getLast?_cons_cons] at h
      exact List.mem_cons_of_mem a (ih h)

theorem getLastq_suffix (t a : List Char) (x : Char) (hs : t <:+ a)
    (hl : a.getLast? = some x) : t = [] ∨ t.getLast? = some x := by
  cases t with
  | nil => exact Or.inl rfl
  | cons c r =>
    right
    obtain ⟨pre, hpre⟩ := hs
    rw [← hpre, List.getLast?_append_of_ne_nil pre (by simp)] at hl
    exact hl

theorem substStep_snd_suffix (m : List (String × String)) (c : Char)
    (rest : List Char) : (substStep m (c :: rest)).2 <:+ c :: rest := by
  rw [substStep]
  by_cases hc : c = '$'
  · rw [if_pos hc]
    match rest with
    | [] =>
      rw [substDollar]
      exact List.nil_suffix
    | d :: r =>
      rw [substDollar]
      by_cases hd : d = '$'
      · rw [if_pos hd]
        exact (List.suffix_cons d r).trans (List.suffix_cons c (d :: r))
      · rw [if_neg hd]
        by_cases hs : isIdentStart d = true
        · rw [if_pos hs, substNamed_snd]
          have h1 : (takeIdent r).2 <:+ r := ⟨(takeIdent r).1, takeIdent_append r⟩
          exact (h1.trans (List.suffix_cons d r)).trans
            (List.suffix_cons c (d :: r))
        · rw [if_neg hs]
          by_cases hb : d = lbrace
          · rw [if_pos hb]
            cases hp : parseBraced r with
            | some q =>
              obtain ⟨nm, rem⟩ := q
              rw [substBracedTok_eq_some m r nm rem hp]
              have hsh := (parseBraced_some_shape hp).1
              have h1 : rem <:+ r := by
                rw [hsh]
                exact ⟨nm ++ [rbrace], by simp⟩
              have h2 := (h1.trans (List.suffix_cons d r)).trans
                (List.suffix_cons c (d :: r))
              cases hlk : lookupVar m (String.mk nm) with
              | some v => simp only [hlk]; exact h2
              | none => simp only [hlk]; exact h2
            | none =>
              rw [substBracedTok_eq_none m r hp, ← hb]
              exact List.suffix_cons c (d :: r)
          · rw [if_neg hb]
            exact List.suffix_cons c (d :: r)
  · rw [if_neg hc]
    exact List.suffix_cons c rest

theorem substStep_append_nl (m : List (String × String))
    (a b : List Char) (hl : a.getLast? = some '\n') :
    substStep m (a ++ b) = ((substStep m a).1, (substStep m a).2 ++ b) := by
  match a with
  | [] => exact absurd hl (by simp)
  | c :: t =>
    rw [List.cons_append]
    by_cases hc : c = '$'
    · subst hc
      match t with
      | [] => exact absurd hl (by decide)
      | d :: t' =>
        have htl : (d :: t').getLast? = some '\n' :=
          getLastq_tail '$' (d :: t') '\n' (by simp) hl
        by_cases hd : d = '$'
        · subst hd
          rw [List.cons_append, substStep_escaped m (t' ++ b),
            substStep_escaped m t']
        · by_cases hs : isIdentStart d = true
          · have ht' : t' ≠ [] := by
              intro h0
              subst h0
              have hdn : d = '\n' := by simpa using htl
              rw [hdn] at hs
              exact absurd hs (by decide)
            have ht'nl : t'.getLast? = some '\n' :=
              getLastq_tail d t' '\n' ht' htl
            have hmem : '\n' ∈ t' := getLastq_mem t' '\n' ht'nl
            have hne := takeIdent_snd_ne_nil t' '\n' hmem (by decide)
            cases hp : (takeIdent t').2 with
            | nil => exact absurd hp hne
            | cons s0 r0 =>
              have h1 : takeIdent t' = ((takeIdent t').1, s0 :: r0) := by
                rw [← hp]
              have h2 := takeIdent_append_stop t' b s0 r0 hp
              rw [List.cons_append, substStep, if_pos rfl, substDollar,
                if_neg hd, if_pos hs,
                substNamed_eq m d (t' ++ b) (takeIdent t').1 (s0 :: (r0 ++ b))
                  h2,
                substStep, if_pos rfl, substDollar, if_neg hd, if_pos hs,
                substNamed_eq m d t' (takeIdent t').1 (s0 :: r0) h1]
              cases hlk : lookupVar m (String.mk (d :: (takeIdent t').1)) with
              | some v => simp only [hlk]; rfl
              | none => simp only [hlk]; rfl
          · by_cases hb : d = lbrace
            · have ht' : t' ≠ [] := by
                intro h0
                subst h0
                have hdn : d = '\n' := by simpa using htl
                rw [hdn] at hb
                exact absurd hb (by decide)
              have ht'nl : t'.getLast? = some '\n' :=
                getLastq_tail d t' '\n' ht' htl
              have hmem : '\n' ∈ t' := getLastq_mem t' '\n' ht'nl
              subst hb
              rw [List.cons_append, substStep, if_pos rfl, substDollar,
                if_neg hd]
              rw [show isIdentStart lbrace = false from by decide]
              simp only [Bool.false_eq_true, if_false, eq_self_iff_true,
                if_true]
              rw [substStep, if_pos rfl, substDollar, if_neg hd]
              rw [show isIdentStart lbrace = false from by decide]
              simp only [Bool.false_eq_true, if_false, eq_self_iff_true,
                if_true]
              cases hq : parseBraced t' with
              | some q =>
                obtain ⟨nm, rem⟩ := q
                rw [substBracedTok_eq_some m (t' ++ b) nm (rem ++ b)
                    (parseBraced_append_some t' b nm rem hq),
                  substBracedTok_eq_some m t' nm rem hq]
                cases hlk : lookupVar m (String.mk nm) with
                | some v => simp only [hlk]
                | none => simp only [hlk]
              | none =>
                rw [substBracedTok_eq_none m (t' ++ b)
                    (parseBraced_append_none t' b '\n' hmem (by decide) hq),
                  substBracedTok_eq_none m t' hq]
                rfl
            · rw [List.cons_append, substStep, if_pos rfl, substDollar,
                if_neg hd, if_neg hs, if_neg hb,
                substStep, if_pos rfl, substDollar, if_neg hd, if_neg hs,
                if_neg hb]
              rfl
    · rw [substStep_lit m (t ++ b) hc, substStep_lit m t hc]

theorem subst_append_nl (m : List (String × String)) :
    ∀ (n : Nat) (a b : List Char), a.length ≤ n →
      a.getLast? = some '\n' →
      subst m (a ++ b) = subst m a ++ subst m b := by
  intro n
  induction n with
  | zero =>
    intro a b ha hl
    have : a = [] := List.length_eq_zero.mp (Nat.le_zero.mp ha)
    subst this
    exact absurd hl (by simp)
  | succ n ih =>
    intro a b ha hl
    match a with
    | [] => exact absurd hl (by simp)
    | c :: t =>
      have hstep := substStep_append_nl m (c :: t) b hl
      rw [List.cons_append] at hstep
      rw [List.cons_append, subst_cons m c (t ++ b), hstep]
      show (substStep m (c :: t)).1 ++
          subst m ((substStep m (c :: t)).2 ++ b) = _
      rcases getLastq_suffix ((substStep m (c :: t)).2) (c :: t) '\n'
          (substStep_snd_suffix m c t) hl with hnil | hend
      · rw [hnil, List.nil_append, subst_cons m c t, hnil, subst_nil,
          List.append_nil]
      · have hlen : (substStep m (c :: t)).2.length ≤ n := by
          have := substStep_length m c t
          simp only [List.length_cons] at ha
          omega
        rw [ih ((substStep m (c :: t)).2) b hlen hend, subst_cons m c t,
          List.append_assoc]

theorem safe_substitute_append_nl (m : List (String × String))
    (a b : String) (h : a.data.getLast? = some '\n') :
    safe_substitute m (a ++ b) =
      safe_substitute m a ++ safe_substitute m b := by
  apply String.ext
  rw [data_safe_substitute, data_append, data_append, data_safe_substitute,
    data_safe_substitute]
  exact subst_append_nl m a.data.length a.data b.data Nat.le.refl h

theorem safe_substitute_foldl_map (m : List (String × String)) :
    ∀ (lines : List String) (acc : String),
      acc.data.getLast? = some '\n' →
      (∀ l ∈ lines, l.data.getLast? = some '\n') →
      safe_substitute m (List.foldl (· ++ ·) acc lines) =
        List.foldl (· ++ ·) (safe_substitute m acc)
          (lines.map (safe_substitute m)) := by
  intro lines
  induction lines with
  | nil =>
    intro acc h1 h2
    simp
  | cons l ls ih =>
    intro acc h1 h2
    rw [List.foldl_cons, List.map_cons, List.foldl_cons]
    have hl1 := h2 l (List.mem_cons_self l ls)
    have hne : l.data ≠ [] := by
      intro h0
      rw [h0] at hl1
      simp at hl1
    have hacc : (acc ++ l).data.getLast? = some '\n' := by
      rw [data_append, List.getLast?_append_of_ne_nil acc.data hne]
      exact hl1
    rw [← safe_substitute_append_nl m acc l h1]
    exact ih (acc ++ l) hacc (fun x hx => h2 x (List.mem_cons_of_mem l hx))

/-- C7 counterexample: the claim fails as stated: binding the name of the
shell variable `package_dir` (which occurs as shell-variable text
`$package_dir` in the catalog template `CLEAN_PACKAGE`) makes substitution
rewrite that shell-variable text, so shell tokens whose names match the
placeholder identifier syntax do not pass through untouched for every
bindings mapping. -/
theorem catalog_shell_token_clash_counterexample :
    safe_substitute [("package_dir", "X")] CLEAN_PACKAGE ≠ CLEAN_PACKAGE := by
  decide

/-- C7 amended: a shell-syntax token that does not match the placeholder
identifier syntax passes through untouched for every bindings mapping —
both an invalid delimiter use such as `$1`, `$0` or `$-` (third conjunct)
and an ill-formed braced token (fourth conjunct), in particular the
catalog\x27s `$\x7bmodules[@]\x7d` in front of any continuation (fifth
conjunct); a token that does match the placeholder identifier syntax (such
as `$arch` or `$package_dir`) passes through untouched exactly when its
name is unbound, and is replaced when bound (first and second conjuncts);
under the intended project-level bindings, binding only `PROJECT_NAME`,
the whole catalog\x27s shell text passes through untouched: `BUILD_PACKAGE`
and `CLEAN_PACKAGE` are unchanged, and `CRON`, `INITD` and `PACKAGE_CONF`
change only at their intended `$PROJECT_NAME` tokens — in particular the
shell positional references `$0` and `$1` of `INITD` survive verbatim in
the composed text. -/
theorem catalog_shell_token_passthrough (m : List (String × String))
    (name : String) (h1 : validIdent name = true) :
    (lookupVar m name = none →
      safe_substitute m ("$" ++ name) = "$" ++ name) ∧
    (∀ v, lookupVar m name = some v →
      safe_substitute m ("$" ++ name) = v) ∧
    (∀ (c : Char) (l : List Char), isIdentStart c = false → ¬ c = '$' →
      ¬ c = lbrace →
      safe_substitute m (String.mk ('$' :: c :: l)) =
        "$" ++ safe_substitute m (String.mk (c :: l))) ∧
    (∀ r : List Char, parseBraced r = none →
      safe_substitute m (String.mk ('$' :: lbrace :: r)) =
        "$" ++ safe_substitute m (String.mk (lbrace :: r))) ∧
    (∀ rest : String,
      safe_substitute m ("$\x7bmodules[@]\x7d" ++ rest) =
        "$\x7bmodules[@]\x7d" ++ safe_substitute m rest) ∧
    safe_substitute [("PROJECT_NAME", "demo")] BUILD_PACKAGE =
      BUILD_PACKAGE ∧
    safe_substitute [("PROJECT_NAME", "demo")] CLEAN_PACKAGE =
      CLEAN_PACKAGE ∧
    safe_substitute [("PROJECT_NAME", "demo")] CRON =
        "SHELL=/bin/sh\n" ++
        "PATH=/usr/local/sbin:/usr/local/bin:/sbin:/bin:/usr/sbin:/usr/bin\n" ++
        "\n" ++
        "*/1 * * * *    root    /etc/init.d/demo.sh status || /etc/init.d/demo.sh start\n" ∧
    safe_substitute [("PROJECT_NAME", "demo")] INITD =
        "#!/bin/sh\n" ++
        "\n" ++
        ". /lib/lsb/init-functions\n" ++
        "\n" ++
        "case \"$1\" in\n" ++
        "    start)\n" ++
        "        log_begin_msg \"Starting demo: \"\n" ++
        "\n" ++
        "        if start-stop-daemon --start --quiet --exec /usr/local/bin/demo; then\n" ++
        "            log_end_msg 0\n" ++
        "        else\n" ++
        "            log_end_msg 1\n" ++
        "        fi\n" ++
        "        ;;\n" ++
        "\n" ++
        "    stop)\n" ++
        "        log_begin_msg \"Shutting down demo: \"\n" ++
        "\n" ++
        "        if start-stop-daemon --stop --quiet --exec /usr/local/bin/demo; then\n" ++
        "            log_end_msg 0\n" ++
        "        else\n" ++
        "            log_end_msg 1\n" ++
        "        fi\n" ++
        "        ;;\n" ++
        "\n" ++
        "    status)\n" ++
        "        if [ -s /var/run/demo.pid ]; then\n" ++
        "            if kill -0 \x60cat /var/run/demo.pid\x60 2>/dev/null; then\n" ++
        "                log_success_msg \"demo esta sendo executado\"\n" ++
        "                exit 0\n" ++
        "            else\n" ++
        "                log_failure_msg \"/var/run/demo.pid exists but demo is not running\"\n" ++
        "                exit 1\n" ++
        "            fi\n" ++
        "        else\n" ++
        "            log_success_msg \"demo is not running\"\n" ++
        "            exit 3\n" ++
        "        fi\n" ++
        "        ;;\n" ++
        "\n" ++
        "    restart)\n" ++
        "        $0 stop\n" ++
        "        sleep 5\n" ++
        "        $0 start\n" ++
        "        ;;\n" ++
        "\n" ++
        "    reload)\n" ++
        "        log_begin_msg \"Restarting demo: \"\n" ++
        "        start-stop-daemon --stop --signal 10 --exec /usr/local/bin/demo || log_end_msg 1\n" ++
        "        log_end_msg 0\n" ++
        "        ;;\n" ++
        "\n" ++
        "    *)\n" ++
        "        log_begin_msg \"Usage: %s (start|stop|status|restart|reload)\" \"$0\"\n" ++
        "        exit 1\n" ++
        "esac\n" ++
        "\n" ++
        "exit 0\n" ∧
    safe_substitute [("PROJECT_NAME", "demo")] PACKAGE_CONF =
        "# Main package informations.\n" ++
        "# The package modules must be separated by spaces.\n" ++
        "[package]\n" ++
        "name=demo\n" ++
        "modules=demo\n" ++
        "\n" ++
        "# Package version: major.minor.release\n" ++
        "# Example: 0.1.1\n" ++
        "[version]\n" ++
        "major=0\n" ++
        "minor=1\n" ++
        "release=1\n" ++
        "beta=true\n" := by
  refine ⟨fun h2 => substitute_named_end_unbound m name h1 h2,
    fun v h2 => substitute_named_end_bound m name v h1 h2,
    fun c l hs hd hb => substitute_invalid_char m c l hs hd hb,
    fun r hp => substitute_braced_invalid_tok m r hp,
    ?_, ?_, ?_, ?_, ?_, ?_⟩
  · intro rest
    apply String.ext
    rw [data_safe_substitute, data_append, data_append, data_safe_substitute]
    rw [show ("$\x7bmodules[@]\x7d" : String).data =
      '$' :: lbrace :: ("modules[@]\x7d" : String).data from by decide]
    rw [show ('$' :: lbrace :: ("modules[@]\x7d" : String).data) ++
        rest.data =
      '$' :: lbrace :: (("modules[@]\x7d" : String).data ++ rest.data)
      from rfl]
    rw [subst_braced_invalid m
      (("modules[@]\x7d" : String).data ++ rest.data)
      (parseBraced_append_none ("modules[@]\x7d" : String).data rest.data
        '[' (by decide) (by decide) (by decide))]
    rw [show lbrace :: (("modules[@]\x7d" : String).data ++ rest.data) =
      (lbrace :: ("modules[@]\x7d" : String).data) ++ rest.data
      from rfl]
    rw [subst_dollarfree m (lbrace :: ("modules[@]\x7d" : String).data)
      rest.data (by decide)]
    rfl
  · refine Eq.trans (safe_substitute_foldl_map [("PROJECT_NAME", "demo")]
      BUILD_PACKAGE_TAIL_LINES "package_conf=\"../package.conf\"\n"
      (by decide) (by decide)) ?_
    rw [show safe_substitute [("PROJECT_NAME", "demo")]
        "package_conf=\"../package.conf\"\n" =
        "package_conf=\"../package.conf\"\n" from by decide,
      show BUILD_PACKAGE_TAIL_LINES.map
        (safe_substitute [("PROJECT_NAME", "demo")]) =
        BUILD_PACKAGE_TAIL_LINES from by decide]
    rfl
  · decide
  · decide
  · refine Eq.trans (safe_substitute_foldl_map [("PROJECT_NAME", "demo")]
      INITD_TAIL_LINES "#!/bin/sh\n" (by decide) (by decide)) ?_
    rw [show safe_substitute [("PROJECT_NAME", "demo")] "#!/bin/sh\n" =
        "#!/bin/sh\n" from by decide,
      show INITD_TAIL_LINES.map
        (safe_substitute [("PROJECT_NAME", "demo")]) =
    ["\n",
     ". /lib/lsb/init-functions\n",
     "\n",
     "case \"$1\" in\n",
     "    start)\n",
     "        log_begin_msg \"Starting demo: \"\n",
     "\n",
     "        if start-stop-daemon --start --quiet --exec /usr/local/bin/demo; then\n",
     "            log_end_msg 0\n",
     "        else\n",
     "            log_end_msg 1\n",
     "        fi\n",
     "        ;;\n",
     "\n",
     "    stop)\n",
     "        log_begin_msg \"Shutting down demo: \"\n",
     "\n",
     "        if start-stop-daemon --stop --quiet --exec /usr/local/bin/demo; then\n",
     "            log_end_msg 0\n",
     "        else\n",
     "            log_end_msg 1\n",
     "        fi\n",
     "        ;;\n",
     "\n",
     "    status)\n",
     "        if [ -s /var/run/demo.pid ]; then\n",
     "            if kill -0 \x60cat /var/run/demo.pid\x60 2>/dev/null; then\n",
     "                log_success_msg \"demo esta sendo executado\"\n",
     "                exit 0\n",
     "            else\n",
     "                log_failure_msg \"/var/run/demo.pid exists but demo is not running\"\n",
     "                exit 1\n",
     "            fi\n",
     "        else\n",
     "            log_success_msg \"demo is not running\"\n",
     "            exit 3\n",
     "        fi\n",
     "        ;;\n",
     "\n",
     "    restart)\n",
     "        $0 stop\n",
     "        sleep 5\n",
     "        $0 start\n",
     "        ;;\n",
     "\n",
     "    reload)\n",
     "        log_begin_msg \"Restarting demo: \"\n",
     "        start-stop-daemon --stop --signal 10 --exec /usr/local/bin/demo || log_end_msg 1\n",
     "        log_end_msg 0\n",
     "        ;;\n",
     "\n",
     "    *)\n",
     "        log_begin_msg \"Usage: %s (start|stop|status|restart|reload)\" \"$0\"\n",
     "        exit 1\n",
     "esac\n",
     "\n",
     "exit 0\n"]
        from by decide]
    rfl
  · decide

/-- Witness for C7 (amended) at a concrete input: the bound identifier-shaped
shell token `$arch` is replaced by its binding. -/
theorem catalog_shell_token_passthrough_witness :
    safe_substitute [("arch", "i386")] ("$" ++ "arch") = "i386" :=
  (catalog_shell_token_passthrough [("arch", "i386")] "arch"
    (by decide)).2.1 "i386" (by decide)

end SourceTpl
